import Mathlib

/-!
Verification of the `iron-drain` crate (`src/lib.rs`): an Iron
`AfterMiddleware` that drains the unread request body up to a configured
limit before the socket is reused, and forces `Connection: close` when
bytes remain beyond the limit or a read fails.

Shallow embedding.  A request body stream is modelled as the list of its
remaining bytes followed by an ending event: clean end-of-stream (`eof`,
reads past the data return `Ok(0)`) or an I/O error (`ioError`, the read
that runs past the data returns `Err`).  Machine reads are modelled at
byte granularity:

* `copyTake limit s` models
  `io::copy(&mut req.body.by_ref().take(limit), &mut io::sink())`
  (lib.rs line 56): it consumes `min limit s.bytes.length` bytes and
  reports whether the copy returned `Ok`.  The `Take` adapter stops
  before touching the underlying stream once `limit` bytes have been
  delivered, so an error ending is only hit when the data runs out
  strictly before the limit.
* `read1 s` models `req.body.read(&mut buf)` with a 1-byte buffer
  (lib.rs lines 58-59).

The response is modelled with the fields `drain` can observe or touch:
a status, a body, the `Connection` header (a list of connection options,
as in hyper, where `Connection::close()` is the one-element list
`[close]`), and the remaining headers as an association list.  The Iron
request is represented by its body stream, the only part of the request
that `drain` reads.
-/

inductive Ending where
  | eof : Ending
  | ioError : Ending
deriving DecidableEq, Repr

structure BodyStream where
  bytes : List Nat
  ending : Ending
deriving DecidableEq, Repr

/-- Result of one `Read::read` call: `Ok n` or `Err`. -/
inductive ReadResult where
  | ok : Nat → ReadResult
  | err : ReadResult
deriving DecidableEq, Repr

/-- Hyper `ConnectionOption` values a `Connection` header can carry. -/
inductive ConnectionOption where
  | close : ConnectionOption
  | keepAlive : ConnectionOption
  | other : String → ConnectionOption
deriving DecidableEq, Repr

structure Headers where
  connection : Option (List ConnectionOption)
  rest : List (String × String)
deriving DecidableEq, Repr

structure Response where
  status : Option Nat
  body : Option (List Nat)
  headers : Headers
deriving DecidableEq, Repr

/-- An Iron error: an opaque error payload together with the response it
carries (`IronError { error, response }`). -/
structure IronError where
  error : String
  response : Response
deriving DecidableEq, Repr

/-- `resp.headers.set(Connection::close())` (lib.rs line 67): replace the
`Connection` header with the one-option list `[close]`. -/
def setClose (r : Response) : Response :=
  { r with headers := { r.headers with connection := some [ConnectionOption.close] } }

/-- `io::copy(&mut req.body.by_ref().take(limit), &mut io::sink())`
(lib.rs line 56).  Returns whether the copy returned `Ok`, and the
stream afterwards.  If at least `limit` bytes remain, `Take` delivers
exactly `limit` of them and then reports end-of-input without touching
the underlying stream again, so the copy succeeds.  Otherwise the copy
consumes all remaining bytes and then hits the ending: `Ok` at a clean
end-of-stream, `Err` on an I/O error. -/
def copyTake (limit : Nat) (s : BodyStream) : Bool × BodyStream :=
  if limit ≤ s.bytes.length then
    (true, ⟨s.bytes.drop limit, s.ending⟩)
  else
    match s.ending with
    | Ending.eof => (true, ⟨[], Ending.eof⟩)
    | Ending.ioError => (false, ⟨[], Ending.ioError⟩)

/-- `req.body.read(&mut buf)` with `buf = [0]` (lib.rs lines 58-59):
deliver one byte if any remain, otherwise report the stream's ending. -/
def read1 (s : BodyStream) : ReadResult × BodyStream :=
  match s.bytes with
  | _ :: restBytes => (ReadResult.ok 1, ⟨restBytes, s.ending⟩)
  | [] =>
    match s.ending with
    | Ending.eof => (ReadResult.ok 0, s)
    | Ending.ioError => (ReadResult.err, s)

/-- The middleware configuration: `pub struct Drain { limit: u64 }`. -/
structure Drain where
  limit : Nat
deriving DecidableEq, Repr

/-- `Drain::with_limit` (lib.rs lines 48-52). -/
def Drain.with_limit (limit : Nat) : Drain :=
  { limit := limit }

/-- `Drain::new` (lib.rs lines 43-45). -/
def Drain.new : Drain :=
  Drain.with_limit (1024 * 1024)

/-- `Drain::drain` (lib.rs lines 54-68).  Bounded copy; if it succeeded,
probe with a 1-byte read, and return with the response untouched exactly
when the probe returns `Ok(0)`; on any other outcome set
`Connection: close`.  The function returns the new stream state and the
response: its Rust return type `()` (the response is mutated in place)
carries no error, which the pair type reflects. -/
def Drain.drain (d : Drain) (req : BodyStream) (resp : Response) :
    BodyStream × Response :=
  match copyTake d.limit req with
  | (true, s1) =>
    match read1 s1 with
    | (ReadResult.ok 0, s2) => (s2, resp)
    | (_, s2) => (s2, setClose resp)
  | (false, s1) => (s1, setClose resp)

/-- `AfterMiddleware::after` for `Drain` (lib.rs lines 72-75). -/
def Drain.after (d : Drain) (req : BodyStream) (resp : Response) :
    BodyStream × Except IronError Response :=
  match d.drain req resp with
  | (req2, resp2) => (req2, Except.ok resp2)

/-- `AfterMiddleware::catch` for `Drain` (lib.rs lines 77-80). -/
def Drain.catch (d : Drain) (req : BodyStream) (err : IronError) :
    BodyStream × Except IronError Response :=
  match d.drain req err.response with
  | (req2, resp2) => (req2, Except.error { err with response := resp2 })

/-- A sample response used by the concrete witnesses: status 200, empty
body, no `Connection` header, one unrelated header. -/
def sampleResp : Response :=
  { status := some 200
    body := some []
    headers := { connection := none, rest := [("content-type", "text/plain")] } }

/-! ### Helper lemmas about the two read phases -/

lemma copyTake_of_le (limit : Nat) (bytes : List Nat) (e : Ending)
    (h : limit ≤ bytes.length) :
    copyTake limit ⟨bytes, e⟩ = (true, ⟨bytes.drop limit, e⟩) := by
  simp [copyTake, h]

lemma copyTake_of_lt_eof (limit : Nat) (bytes : List Nat)
    (h : bytes.length < limit) :
    copyTake limit ⟨bytes, Ending.eof⟩ = (true, ⟨[], Ending.eof⟩) := by
  simp [copyTake, Nat.not_le.mpr h]

lemma copyTake_of_lt_ioError (limit : Nat) (bytes : List Nat)
    (h : bytes.length < limit) :
    copyTake limit ⟨bytes, Ending.ioError⟩ = (false, ⟨[], Ending.ioError⟩) := by
  simp [copyTake, Nat.not_le.mpr h]

/-- `drain` on a fully-unread error-free stream of size `≤ limit` leaves
the response untouched and exhausts the stream. -/
lemma drain_eof_le (d : Drain) (bytes : List Nat) (resp : Response)
    (h : bytes.length ≤ d.limit) :
    d.drain ⟨bytes, Ending.eof⟩ resp = (⟨[], Ending.eof⟩, resp) := by
  rcases Nat.lt_or_ge bytes.length d.limit with hlt | hge
  · simp [Drain.drain, copyTake_of_lt_eof d.limit bytes hlt, read1]
  · have heq : bytes.length = d.limit := Nat.le_antisymm h hge
    have hdrop : bytes.drop d.limit = [] :=
      List.drop_eq_nil_of_le (by omega)
    simp [Drain.drain, copyTake_of_le d.limit bytes Ending.eof hge, hdrop, read1]

/-- `drain` on a stream holding more than `limit` bytes (any ending)
consumes exactly `limit + 1` bytes — `limit` by the bounded copy and one
more by the probe — and forces `Connection: close`. -/
lemma drain_gt (d : Drain) (bytes : List Nat) (e : Ending) (resp : Response)
    (h : d.limit < bytes.length) :
    d.drain ⟨bytes, e⟩ resp =
      (⟨bytes.drop (d.limit + 1), e⟩, setClose resp) := by
  have hle : d.limit ≤ bytes.length := Nat.le_of_lt h
  have hne : bytes.drop d.limit ≠ [] := by
    intro hnil
    have := List.length_drop d.limit bytes
    rw [hnil] at this
    simp at this
    omega
  obtain ⟨b, restBytes, hcons⟩ := List.exists_cons_of_ne_nil hne
  have hrest : restBytes = bytes.drop (d.limit + 1) := by
    have htl : (bytes.drop d.limit).tail = bytes.drop (d.limit + 1) := by
      simp [List.tail_drop]
    rw [hcons] at htl
    simpa using htl
  simp [Drain.drain, copyTake_of_le d.limit bytes e hle, read1, hcons, hrest]

/-- `drain` on a stream of at most `limit` bytes that errors when read
past its data: the copy (if the data runs out strictly before the limit)
or the probe (if the data runs out exactly at the limit) hits the error,
and `Connection: close` is forced. -/
lemma drain_ioError_le (d : Drain) (bytes : List Nat) (resp : Response)
    (h : bytes.length ≤ d.limit) :
    d.drain ⟨bytes, Ending.ioError⟩ resp =
      (⟨[], Ending.ioError⟩, setClose resp) := by
  rcases Nat.lt_or_ge bytes.length d.limit with hlt | hge
  · simp [Drain.drain, copyTake_of_lt_ioError d.limit bytes hlt]
  · have hdrop : bytes.drop d.limit = [] :=
      List.drop_eq_nil_of_le (by omega)
    simp [Drain.drain, copyTake_of_le d.limit bytes Ending.ioError hge, hdrop,
      read1]

/-- `drain` either leaves the response alone or replaces it by
`setClose` of it; no other response ever comes out. -/
lemma drain_resp_eq_or (d : Drain) (s : BodyStream) (resp : Response) :
    (d.drain s resp).2 = resp ∨ (d.drain s resp).2 = setClose resp := by
  unfold Drain.drain
  rcases hc : copyTake d.limit s with ⟨ok, s1⟩
  cases ok
  · simp [hc]
  · rcases hr : read1 s1 with ⟨r, s2⟩
    rcases r with n | _
    · rcases n with _ | m
      · simp [hc, hr]
      · simp [hc, hr]
    · simp [hc, hr]


/-! ### The claims -/

/-- C1: For every fully-unread error-free body stream of size `s`: if
`s ≤ limit`, `drain` leaves the response untouched (in particular the
connection-directive header is unchanged) and leaves the stream at
end-of-stream (a further read yields `Ok(0)`); if `s > limit`, `drain`
sets the `Connection` header to close.  A body of size exactly `limit`
falls in the first case. -/
theorem claim_C1 (d : Drain) (bytes : List Nat) (resp : Response) :
    (bytes.length ≤ d.limit →
      (d.drain ⟨bytes, Ending.eof⟩ resp).2 = resp ∧
      read1 (d.drain ⟨bytes, Ending.eof⟩ resp).1 =
        (ReadResult.ok 0, ⟨[], Ending.eof⟩)) ∧
    (d.limit < bytes.length →
      (d.drain ⟨bytes, Ending.eof⟩ resp).2.headers.connection =
        some [ConnectionOption.close]) := by
  constructor
  · intro h
    rw [drain_eof_le d bytes resp h]
    exact ⟨rfl, rfl⟩
  · intro h
    rw [drain_gt d bytes Ending.eof resp h]
    rfl

/-- C1 witness: `limit = 10`; a fully-unread 10-byte body leaves the
response unchanged, an 11-byte body forces `Connection: close`. -/
theorem claim_C1_witness :
    ((Drain.with_limit 10).drain ⟨List.replicate 10 7, Ending.eof⟩
        sampleResp).2 = sampleResp ∧
    ((Drain.with_limit 10).drain ⟨List.replicate 11 7, Ending.eof⟩
        sampleResp).2.headers.connection = some [ConnectionOption.close] :=
  ⟨((claim_C1 (Drain.with_limit 10) (List.replicate 10 7) sampleResp).1
      (by decide)).1,
   (claim_C1 (Drain.with_limit 10) (List.replicate 11 7) sampleResp).2
      (by decide)⟩

/-- C2: if the bounded copy or the subsequent 1-byte probe read returns
an I/O error, `drain` sets the `Connection` header to close and returns
normally: the resulting response is exactly `setClose` of the input, and
`drain`'s return type (`BodyStream × Response`) carries no error value
at all, matching the Rust `()` return with in-place mutation. -/
theorem claim_C2 (d : Drain) (s : BodyStream) (resp : Response)
    (h : (copyTake d.limit s).1 = false ∨
         (read1 (copyTake d.limit s).2).1 = ReadResult.err) :
    (d.drain s resp).2 = setClose resp ∧
    (d.drain s resp).2.headers.connection = some [ConnectionOption.close] := by
  have hmain : (d.drain s resp).2 = setClose resp := by
    unfold Drain.drain
    rcases hc : copyTake d.limit s with ⟨ok, s1⟩
    cases ok
    · simp [hc]
    · rw [hc] at h
      rcases h with h | h
      · simp at h
      · rcases hr : read1 s1 with ⟨r, s2⟩
        rw [hr] at h
        simp at h
        subst h
        simp [hc, hr]
  exact ⟨hmain, by rw [hmain]; rfl⟩

/-- C2 witness: a 2-byte stream that errors at its end, drained with
`limit = 5`: the bounded copy hits the error and the header is forced to
close. -/
theorem claim_C2_witness :
    ((copyTake (Drain.with_limit 5).limit ⟨[1, 2], Ending.ioError⟩).1 = false ∨
      (read1 (copyTake (Drain.with_limit 5).limit
        ⟨[1, 2], Ending.ioError⟩).2).1 = ReadResult.err) ∧
    ((Drain.with_limit 5).drain ⟨[1, 2], Ending.ioError⟩
        sampleResp).2.headers.connection = some [ConnectionOption.close] :=
  ⟨Or.inl (by decide),
   (claim_C2 (Drain.with_limit 5) ⟨[1, 2], Ending.ioError⟩ sampleResp
      (Or.inl (by decide))).2⟩

/-- C3: in any single invocation of `drain`, on any stream, at most
`limit + 1` bytes are consumed. -/
theorem claim_C3 (d : Drain) (s : BodyStream) (resp : Response) :
    s.bytes.length - (d.drain s resp).1.bytes.length ≤ d.limit + 1 := by
  rcases s with ⟨bytes, e⟩
  rcases Nat.lt_or_ge d.limit bytes.length with hlt | hge
  · rw [drain_gt d bytes e resp hlt]
    simp
    omega
  · cases e
    · rw [drain_eof_le d bytes resp hge]
      simp
      omega
    · rw [drain_ioError_le d bytes resp hge]
      simp
      omega

/-- C4: `drain` only ever touches the connection-directive header of the
response, and when it changes it, it sets it to close; status, body and
the remaining headers come out unchanged on every input. -/
theorem claim_C4 (d : Drain) (s : BodyStream) (resp : Response) :
    (d.drain s resp).2.status = resp.status ∧
    (d.drain s resp).2.body = resp.body ∧
    (d.drain s resp).2.headers.rest = resp.headers.rest ∧
    ((d.drain s resp).2.headers.connection = resp.headers.connection ∨
     (d.drain s resp).2.headers.connection = some [ConnectionOption.close]) := by
  rcases drain_resp_eq_or d s resp with h | h <;> rw [h]
  · exact ⟨rfl, rfl, rfl, Or.inl rfl⟩
  · exact ⟨rfl, rfl, rfl, Or.inr rfl⟩

/-- C5: the `catch` hook drains the error's carried response and then
propagates the same error: the result is `Except.error` carrying the
original error payload with the drained response, which differs from the
carried response at most by having its `Connection` header set to
close. -/
theorem claim_C5 (d : Drain) (s : BodyStream) (err : IronError) :
    (d.catch s err).2 =
      Except.error { error := err.error,
                     response := (d.drain s err.response).2 } ∧
    (d.catch s err).1 = (d.drain s err.response).1 ∧
    ((d.drain s err.response).2 = err.response ∨
     (d.drain s err.response).2 = setClose err.response) := by
  rcases hd : d.drain s err.response with ⟨s2, r2⟩
  refine ⟨?_, ?_, ?_⟩
  · simp [Drain.catch, hd]
  · simp [Drain.catch, hd]
  · have hor := drain_resp_eq_or d s err.response
    rw [hd] at hor
    exact hor

/-- C6: `new()` builds a Drainer with `limit = 1,048,576` and
`with_limit n` builds one with `limit = n` for every `n`, including 0.
The `Drain` structure has no mutating operation, so the limit is never
changed afterwards. -/
theorem claim_C6 :
    Drain.new.limit = 1048576 ∧ ∀ n : Nat, (Drain.with_limit n).limit = n :=
  ⟨rfl, fun _ => rfl⟩

/-- C7: with `limit = 0` on an error-free stream, `drain` leaves the
response untouched (for every response) exactly when the stream has no
remaining bytes; any leftover byte forces `Connection: close`; and at
most one byte is consumed. -/
theorem claim_C7 (bytes : List Nat) (resp : Response) :
    ((∀ r : Response,
        ((Drain.with_limit 0).drain ⟨bytes, Ending.eof⟩ r).2 = r) ↔
      bytes = []) ∧
    (bytes = [] →
      (Drain.with_limit 0).drain ⟨bytes, Ending.eof⟩ resp =
        (⟨[], Ending.eof⟩, resp)) ∧
    (bytes ≠ [] →
      ((Drain.with_limit 0).drain ⟨bytes, Ending.eof⟩
          resp).2.headers.connection = some [ConnectionOption.close]) ∧
    bytes.length -
        ((Drain.with_limit 0).drain ⟨bytes, Ending.eof⟩ resp).1.bytes.length
      ≤ 1 := by
  have hgt : bytes ≠ [] →
      ∀ r : Response, (Drain.with_limit 0).drain ⟨bytes, Ending.eof⟩ r =
        (⟨bytes.tail, Ending.eof⟩, setClose r) := by
    intro hne r
    have hpos : (Drain.with_limit 0).limit < bytes.length := by
      have := List.length_pos.mpr hne
      simpa [Drain.with_limit] using this
    simpa [Drain.with_limit] using
      drain_gt (Drain.with_limit 0) bytes Ending.eof r hpos
  refine ⟨⟨?_, ?_⟩, ?_, ?_, ?_⟩
  · intro hall
    by_contra hne
    have h1 := hall sampleResp
    rw [hgt hne sampleResp] at h1
    have h2 : setClose sampleResp = sampleResp := h1
    simp [setClose, sampleResp] at h2
  · intro he r
    subst he
    rw [drain_eof_le (Drain.with_limit 0) [] r (by simp)]
  · intro he
    subst he
    rw [drain_eof_le (Drain.with_limit 0) [] resp (by simp)]
  · intro hne
    rw [hgt hne resp]
    rfl
  · rcases Decidable.em (bytes = []) with he | hne
    · subst he
      rw [drain_eof_le (Drain.with_limit 0) [] resp (by simp)]
      simp
    · rw [hgt hne resp]
      rcases bytes with _ | ⟨b, tl⟩
      · exact absurd rfl hne
      · simp

/-- C7 witness: `limit = 0`; an empty stream leaves the response
unchanged, a 1-byte stream forces `Connection: close`. -/
theorem claim_C7_witness :
    ((Drain.with_limit 0).drain ⟨([] : List Nat), Ending.eof⟩ sampleResp =
      (⟨[], Ending.eof⟩, sampleResp)) ∧
    (((Drain.with_limit 0).drain ⟨[3], Ending.eof⟩
        sampleResp).2.headers.connection = some [ConnectionOption.close]) :=
  ⟨(claim_C7 [] sampleResp).2.1 rfl,
   (claim_C7 [3] sampleResp).2.2.1 (by decide)⟩

/-- C8: on a stream already at end-of-stream, `drain` is a no-op for any
limit: response and stream both come out unchanged, so a second call
yields exactly the same result as the first. -/
theorem claim_C8 (d : Drain) (resp : Response) :
    d.drain ⟨[], Ending.eof⟩ resp = (⟨[], Ending.eof⟩, resp) ∧
    d.drain (d.drain ⟨[], Ending.eof⟩ resp).1
        (d.drain ⟨[], Ending.eof⟩ resp).2 =
      d.drain ⟨[], Ending.eof⟩ resp := by
  have h := drain_eof_le d [] resp (Nat.zero_le _)
  refine ⟨h, ?_⟩
  rw [h]
  exact drain_eof_le d [] resp (Nat.zero_le _)

/-- C9: the middleware never flips success and failure: for every
stream, response and error, `after` always returns `Except.ok` carrying
exactly the drained response, and `catch` always returns `Except.error`
carrying the original error payload with the drained response. -/
theorem claim_C9 (d : Drain) (s : BodyStream) (resp : Response)
    (err : IronError) :
    (d.after s resp).2 = Except.ok (d.drain s resp).2 ∧
    (d.catch s err).2 =
      Except.error { error := err.error,
                     response := (d.drain s err.response).2 } := by
  constructor
  · rcases hd : d.drain s resp with ⟨s2, r2⟩
    simp [Drain.after, hd]
  · rcases hd : d.drain s err.response with ⟨s2, r2⟩
    simp [Drain.catch, hd]

/-- C10: on a fully-unread error-free stream of size `s > limit`,
`drain` consumes exactly `limit + 1` bytes — the probe byte is discarded
together with the copied bytes — leaving exactly `s - limit - 1` bytes
(the suffix after the first `limit + 1`) on the stream. -/
theorem claim_C10 (d : Drain) (bytes : List Nat) (resp : Response)
    (h : d.limit < bytes.length) :
    (d.drain ⟨bytes, Ending.eof⟩ resp).1 =
      ⟨bytes.drop (d.limit + 1), Ending.eof⟩ ∧
    bytes.length - (d.drain ⟨bytes, Ending.eof⟩ resp).1.bytes.length =
      d.limit + 1 ∧
    (d.drain ⟨bytes, Ending.eof⟩ resp).1.bytes.length =
      bytes.length - (d.limit + 1) := by
  rw [drain_gt d bytes Ending.eof resp h]
  refine ⟨rfl, ?_, ?_⟩
  · simp
    omega
  · simp

/-- C10 witness: `limit = 2` on a 5-byte stream: exactly 3 bytes are
consumed and the stream keeps the last 2 bytes. -/
theorem claim_C10_witness :
    (Drain.with_limit 2).limit < ([1, 2, 3, 4, 5] : List Nat).length ∧
    ((Drain.with_limit 2).drain ⟨[1, 2, 3, 4, 5], Ending.eof⟩ sampleResp).1 =
      ⟨[4, 5], Ending.eof⟩ :=
  ⟨by decide,
   (claim_C10 (Drain.with_limit 2) [1, 2, 3, 4, 5] sampleResp (by decide)).1⟩
